import Mathlib

/-!
Verification of the HTTP client core of the bombardier repository
(file clients.go): the two transport client variants (fasthttp-based
and net/http-based), their constructors, the header adapters, and the
dial-strategy selection.

The Go code is shallowly embedded: pure string manipulation is
translated function by function; the external effects of do()
(pool acquire/release, the transport round trip, the per-call body
stream producer, the wall clock) are passed in as explicit oracle
values, and the outcome records which effects occurred (whether the
pooled pair was released, which request — if any — was submitted to
the transport, whether the response body was drained and closed).
-/

namespace Bombardier

/-! ## Go string primitives (strings.Contains, strings.Replace with n = 1) -/

/-- Replace the first occurrence of old inside s by new, on character
lists; models Go strings.Replace(s, old, new, 1).  When old is empty it
matches at the beginning of s, as in Go. -/
def replaceFirstList : List Char → List Char → List Char → List Char
  | [], old, new => if old.isEmpty then new else []
  | c :: cs, old, new =>
    if old.isPrefixOf (c :: cs) then new ++ (c :: cs).drop old.length
    else c :: replaceFirstList cs old new

/-- sub occurs as a contiguous substring of s; models Go strings.Contains. -/
def containsSub (s sub : List Char) : Bool :=
  sub.isPrefixOf s ||
    match s with
    | [] => false
    | _ :: rest => containsSub rest sub

/-- Go strings.Contains on strings. -/
def goContains (s sub : String) : Bool :=
  containsSub s.data sub.data

/-- Go strings.Replace(s, old, new, 1) on strings. -/
def goReplaceOnce (s old new : String) : String :=
  ⟨replaceFirstList s.data old.data new.data⟩

/-! ## Canonical header-key normalization

fasthttp normalizes header keys (first letter and every letter after a
hyphen upper-cased, other letters lower-cased); net/textproto does the
same for keys passed to Header.Get. -/

def canonAux : Bool → List Char → List Char
  | _, [] => []
  | up, c :: cs => (if up then c.toUpper else c.toLower) :: canonAux (c == '-') cs

def canonicalKey (s : String) : String :=
  ⟨canonAux true s.data⟩

/-! ## Errors, header lists -/

/-- Opaque error values (Go error); a string carries the message. -/
abbrev Err := String

/-- One entry of the configured headersList. -/
structure HeaderEntry where
  key : String
  value : String
deriving DecidableEq

/-- The headersList type of the configuration. -/
abbrev HeadersList := List HeaderEntry

/-! ## fasthttp.RequestHeader model

fasthttp stores the Host header in a dedicated field of the request
header (Set normalizes the key and routes "Host" there); every other
key is stored in the ordered entry list, Set replacing the first entry
with the same canonical key or appending. -/

structure FastRequestHeader where
  host : Option String
  entries : List (String × String)
deriving DecidableEq

/-- Replace the value of the first entry with key k, or append; models
fasthttp setArgBytes on already-canonical keys. -/
def setEntries : List (String × String) → String → String → List (String × String)
  | [], k, v => [(k, v)]
  | (k0, v0) :: rest, k, v =>
    if k0 = k then (k0, v) :: rest else (k0, v0) :: setEntries rest k v

/-- First entry with key k; models fasthttp peekArgBytes. -/
def lookupEntries : List (String × String) → String → Option String
  | [], _ => none
  | (k0, v0) :: rest, k => if k0 = k then some v0 else lookupEntries rest k

/-- fasthttp RequestHeader.Set: normalize the key, route "Host" to the
host field, store every other key in the entry list. -/
def FastRequestHeader.set (h : FastRequestHeader) (k v : String) : FastRequestHeader :=
  let ck := canonicalKey k
  if ck = "Host" then { h with host := some v }
  else { h with entries := setEntries h.entries ck v }

/-- fasthttp RequestHeader.Peek: normalize the key, read "Host" from
the host field, every other key from the entry list. -/
def fastHdrPeek (h : FastRequestHeader) (k : String) : Option String :=
  if canonicalKey k = "Host" then h.host else lookupEntries h.entries (canonicalKey k)

/-- clients.go headersToFastHTTPHeaders: nil for an empty list,
otherwise a fresh RequestHeader with every configured pair Set onto it
in order. -/
def headersToFastHTTPHeaders (h : HeadersList) : Option FastRequestHeader :=
  if h.length = 0 then none
  else some (h.foldl (fun acc e => acc.set e.key e.value) ⟨none, []⟩)

/-- Peek through the optional header template (nil means no headers). -/
def fastPeekTemplate (t : Option FastRequestHeader) (k : String) : Option String :=
  match t with
  | none => none
  | some hdr => fastHdrPeek hdr k

/-! ## net/http Header model

http.Header is a map from key to value slice; clients.go assigns
headers[key] = []string{value} directly (no canonicalization on
write), and Header.Get canonicalizes the key it looks up. -/

/-- http.Header as an association list with unique keys (map semantics:
assignment replaces). -/
abbrev HTTPHeaderMap := List (String × List String)

/-- Map assignment m[k] = v. -/
def setAssoc : HTTPHeaderMap → String → List String → HTTPHeaderMap
  | [], k, v => [(k, v)]
  | (k0, v0) :: rest, k, v =>
    if k0 = k then (k0, v) :: rest else (k0, v0) :: setAssoc rest k v

/-- Map lookup m[k]. -/
def lookupAssoc : HTTPHeaderMap → String → Option (List String)
  | [], _ => none
  | (k0, v0) :: rest, k => if k0 = k then some v0 else lookupAssoc rest k

/-- net/http Header.Get: canonicalize the key, return the first value
or the empty string. -/
def httpHeaderGet (h : HTTPHeaderMap) (k : String) : String :=
  match lookupAssoc h (canonicalKey k) with
  | some (v :: _) => v
  | _ => ""

/-- clients.go headersToHTTPHeaders: an empty non-nil map for an empty
list, otherwise one map assignment per configured pair, in order. -/
def headersToHTTPHeaders (h : HeadersList) : HTTPHeaderMap :=
  if h.length = 0 then []
  else h.foldl (fun acc e => setAssoc acc e.key [e.value]) []

/-! ## Configuration (clientOpts) and construction-time values -/

/-- tls.Config, kept abstract up to one distinguishing field. -/
structure TLSConf where
  insecureSkipVerify : Bool
deriving DecidableEq

/-- The result of url.Parse on the (caller-guaranteed valid) target
URL: the fields clients.go reads — Scheme, Host, and RequestURI(). -/
structure URL where
  scheme : String
  host : String
  requestURI : String
deriving DecidableEq

/-- clientOpts of clients.go.  maxConns is a uint64 (a natural number
below 2^64); timeout is a time.Duration in nanoseconds; body = none
means the streaming body producer (an oracle at call time) is used.
The byte counters themselves live outside the model: only which dial
function is installed matters to the claims. -/
structure ClientOpts where
  http2 : Bool
  maxConns : Nat
  timeout : Nat
  tlsConfig : Option TLSConf
  disableKeepAlives : Bool
  headers : HeadersList
  url : String
  method : String
  proxyUrl : String
  body : Option String
deriving DecidableEq

/-- Go int(u) for a uint64 value u : two's-complement wrap into a
signed 64-bit integer. -/
def intOfUInt64 (n : Nat) : Int :=
  if n % 2 ^ 64 < 2 ^ 63 then ((n % 2 ^ 64 : Nat) : Int)
  else ((n % 2 ^ 64 : Nat) : Int) - 2 ^ 64

/-- The dial function installed on a transport: the byte-counting
direct dialer (fasthttpDialFunc / httpDialContextFunc over the shared
counters), the SOCKS5 proxy dialer, or the HTTP CONNECT proxy
dialer. -/
inductive DialFuncModel where
  | instrumentedDirect
  | socksProxy (addr : String)
  | httpProxy (addr : String)
deriving DecidableEq

/-- The dial-selection block of newFastHTTPClient (clients.go lines
62-73). -/
def fastDial (proxyUrl : String) : DialFuncModel :=
  if proxyUrl ≠ "" then
    if goContains proxyUrl "socks5" then
      DialFuncModel.socksProxy (goReplaceOnce proxyUrl "socks5://" "")
    else
      DialFuncModel.httpProxy
        (goReplaceOnce (goReplaceOnce proxyUrl "https://" "") "http://" "")
  else
    DialFuncModel.instrumentedDirect

/-- The fasthttp.HostClient fields that newFastHTTPClient sets. -/
structure FastHostClient where
  addr : String
  isTLS : Bool
  maxConns : Int
  readTimeout : Nat
  writeTimeout : Nat
  disableHeaderNamesNormalizing : Bool
  tlsConfig : Option TLSConf
  dial : DialFuncModel
deriving DecidableEq

/-- The fasthttpClient structure of clients.go. -/
structure FasthttpClient where
  client : FastHostClient
  headers : Option FastRequestHeader
  host : String
  requestURI : String
  method : String
  body : Option String
deriving DecidableEq

/-- newFastHTTPClient.  u stands for the result of url.Parse(opts.url),
which the caller guarantees succeeds (the code panics otherwise). -/
def newFastHTTPClient (opts : ClientOpts) (u : URL) : FasthttpClient :=
  { client := {
      addr := u.host
      isTLS := u.scheme = "https"
      maxConns := intOfUInt64 opts.maxConns
      readTimeout := opts.timeout
      writeTimeout := opts.timeout
      disableHeaderNamesNormalizing := true
      tlsConfig := opts.tlsConfig
      dial := fastDial opts.proxyUrl }
    headers := headersToFastHTTPHeaders opts.headers
    host := u.host
    requestURI := u.requestURI
    method := opts.method
    body := opts.body }

/-- The http.Transport fields that newHTTPClient touches.  proxy
records the installed ProxyURL function by the proxy URL string it was
built from (none = the zero value, no proxy); dialContext records the
installed DialContext (none = the zero value). -/
structure HTTPTransport where
  tlsClientConfig : Option TLSConf
  maxIdleConnsPerHost : Int
  disableKeepAlives : Bool
  proxy : Option String
  dialContext : Option DialFuncModel
  tlsNextProtoEmptySet : Bool
  http2Configured : Bool
deriving DecidableEq

/-- The redirect policy installed on the http.Client: always
http.ErrUseLastResponse (redirects are never followed). -/
inductive RedirectPolicy where
  | useLastResponse
deriving DecidableEq

/-- The http.Client value newHTTPClient builds. -/
structure GoHTTPClient where
  transport : HTTPTransport
  timeout : Nat
  checkRedirect : RedirectPolicy
deriving DecidableEq

/-- The httpClient structure of clients.go. -/
structure HttpClient where
  client : GoHTTPClient
  headers : HTTPHeaderMap
  url : URL
  method : String
  body : Option String
deriving DecidableEq

/-- newHTTPClient.  u stands for the result of url.Parse(opts.url),
guaranteed to succeed by the caller (the code panics otherwise). -/
def newHTTPClient (opts : ClientOpts) (u : URL) : HttpClient :=
  let tr0 : HTTPTransport := {
    tlsClientConfig := opts.tlsConfig
    maxIdleConnsPerHost := intOfUInt64 opts.maxConns
    disableKeepAlives := opts.disableKeepAlives
    proxy := none
    dialContext := none
    tlsNextProtoEmptySet := false
    http2Configured := false }
  -- if opts.proxyUrl != "" { tr.Proxy = http.ProxyURL(urlProxy) }
  let tr1 := if opts.proxyUrl ≠ "" then { tr0 with proxy := some opts.proxyUrl } else tr0
  -- tr.DialContext = httpDialContextFunc(opts.bytesRead, opts.bytesWritten)
  let tr2 := { tr1 with dialContext := some DialFuncModel.instrumentedDirect }
  -- HTTP2 configuration, or an empty TLSNextProto map to disable it
  let tr3 :=
    if opts.http2 then { tr2 with http2Configured := true }
    else { tr2 with tlsNextProtoEmptySet := true }
  { client := {
      transport := tr3
      timeout := opts.timeout
      checkRedirect := RedirectPolicy.useLastResponse }
    headers := headersToHTTPHeaders opts.headers
    url := u
    method := opts.method
    body := opts.body }

/-! ## fasthttpClient.do -/

/-- The body attached to a fasthttp request: none yet, a fixed string
(SetBodyString), or a stream from the producer (SetBodyStream). -/
inductive FastBody where
  | noBody
  | bodyString (s : String)
  | bodyStream (s : String)
deriving DecidableEq

/-- The fasthttp request as built by do(): header, method, URI scheme,
request URI and body. -/
structure FastRequest where
  header : FastRequestHeader
  method : String
  scheme : String
  requestURI : String
  body : FastBody
deriving DecidableEq

/-- Everything fasthttpClient.do produces: the returned triple
(code, usTaken, err) plus the effects that occurred — whether the
pooled request/response pair was released back to the pool, and the
request submitted to the transport (none when no submission
happened). -/
structure DoAOutcome where
  code : Int
  usTaken : Nat
  err : Option Err
  released : Bool
  submitted : Option FastRequest
deriving DecidableEq

/-- Tail of fasthttpClient.do from the c.client.Do call on (clients.go
lines 122-136): fire the request, derive code from the transport
outcome (sentinel -1 on error, the response status otherwise), record
the elapsed microseconds, release the pooled pair, return. -/
def fastFire (req : FastRequest) (transport : Except Err Nat)
    (elapsedNanos : Nat) : DoAOutcome :=
  match transport with
  | Except.error e =>
    { code := -1, usTaken := elapsedNanos / 1000, err := some e,
      released := true, submitted := some req }
  | Except.ok status =>
    { code := (status : Int), usTaken := elapsedNanos / 1000, err := none,
      released := true, submitted := some req }

/-- fasthttpClient.do (clients.go lines 93-137).  bodProd is the value
the streaming body producer would return on this call (consulted only
when c.body is nil, as in the code); transport is the outcome of
c.client.Do; elapsedNanos the wall-clock nanoseconds the submission
takes. -/
def fasthttpDo (c : FasthttpClient) (bodProd : Except Err String)
    (transport : Except Err Nat) (elapsedNanos : Nat) : DoAOutcome :=
  -- req := fasthttp.AcquireRequest(); resp := fasthttp.AcquireResponse()
  let req0 : FastRequest :=
    { header := { host := none, entries := [] }, method := "", scheme := "",
      requestURI := "", body := FastBody.noBody }
  -- if c.headers != nil { c.headers.CopyTo(&req.Header) }
  let req1 : FastRequest :=
    match c.headers with
    | some tpl => { req0 with header := tpl }
    | none => req0
  -- if len(req.Header.Host()) == 0 { req.Header.SetHost(c.host) }
  let req2 : FastRequest :=
    if req1.header.host.getD "" = "" then
      { req1 with header := { req1.header with host := some c.host } }
    else req1
  -- req.Header.SetMethod(c.method); scheme from c.client.IsTLS;
  -- req.SetRequestURI(c.requestURI)
  let req3 : FastRequest :=
    { req2 with
      method := c.method
      scheme := if c.client.isTLS then "https" else "http"
      requestURI := c.requestURI }
  match c.body with
  | some b => fastFire { req3 with body := FastBody.bodyString b } transport elapsedNanos
  | none =>
    match bodProd with
    | Except.error bserr =>
      -- return 0, 0, bserr  (before the release calls)
      { code := 0, usTaken := 0, err := some bserr,
        released := false, submitted := none }
    | Except.ok bs =>
      fastFire { req3 with body := FastBody.bodyStream bs } transport elapsedNanos

/-! ## httpClient.do -/

/-- The http.Request fields that httpClient.do sets, plus the URL it
carries.  host is the req.Host override field (empty = zero value,
meaning net/http derives the host from req.URL). -/
structure GoHTTPRequest where
  header : HTTPHeaderMap
  method : String
  url : URL
  host : String
  contentLength : Int
  body : Option String
deriving DecidableEq

/-- The authority net/http uses for a request: req.Host when
non-empty, otherwise the host of req.URL (models the net/http
library's treatment of the Host override). -/
def GoHTTPRequest.effectiveHost (r : GoHTTPRequest) : String :=
  if r.host ≠ "" then r.host else r.url.host

/-- A completed round trip of the standard transport: the response
status, and whether draining the body (io.Copy to ioutil.Discard) or
closing it fails on this call. -/
structure RespB where
  statusCode : Nat
  drainErr : Option Err
  closeErr : Option Err
deriving DecidableEq

/-- Everything httpClient.do produces: the returned triple plus the
effects — the request submitted to the transport (none when no
submission happened), and whether the response body was drained and
closed. -/
structure DoBOutcome where
  code : Int
  usTaken : Nat
  err : Option Err
  submitted : Option GoHTTPRequest
  drained : Bool
  closed : Bool
deriving DecidableEq

/-- Tail of httpClient.do from the c.client.Do call on (clients.go
lines 221-239): submit, then either the sentinel -1 with the transport
error, or capture the status, drain the body (a drain failure becomes
err), close it (a close failure overwrites err); elapsed microseconds
are recorded in both cases. -/
def httpFire (req : GoHTTPRequest) (transport : Except Err RespB)
    (elapsedNanos : Nat) : DoBOutcome :=
  match transport with
  | Except.error e =>
    { code := -1, usTaken := elapsedNanos / 1000, err := some e,
      submitted := some req, drained := false, closed := false }
  | Except.ok resp =>
    -- code = resp.StatusCode; if berr != nil { err = berr };
    -- if cerr := resp.Body.Close(); cerr != nil { err = cerr }
    let err1 : Option Err := resp.drainErr
    let err2 : Option Err :=
      match resp.closeErr with
      | some cerr => some cerr
      | none => err1
    { code := (resp.statusCode : Int), usTaken := elapsedNanos / 1000, err := err2,
      submitted := some req, drained := true, closed := true }

/-- httpClient.do (clients.go lines 196-240).  bodProd is the value the
streaming body producer would return on this call (consulted only when
c.body is nil); transport is the outcome of c.client.Do; elapsedNanos
the wall-clock nanoseconds of the full lifecycle including drain. -/
def httpDo (c : HttpClient) (bodProd : Except Err String)
    (transport : Except Err RespB) (elapsedNanos : Nat) : DoBOutcome :=
  -- req := &http.Request{}; req.Header, req.Method, req.URL := ...
  let req0 : GoHTTPRequest :=
    { header := c.headers, method := c.method, url := c.url, host := "",
      contentLength := 0, body := none }
  -- if host := req.Header.Get("Host"); host != "" { req.Host = host }
  let req1 : GoHTTPRequest :=
    if httpHeaderGet req0.header "Host" ≠ "" then
      { req0 with host := httpHeaderGet req0.header "Host" }
    else req0
  match c.body with
  | some b =>
    httpFire { req1 with contentLength := (b.utf8ByteSize : Int), body := some b }
      transport elapsedNanos
  | none =>
    match bodProd with
    | Except.error bserr =>
      -- return 0, 0, bserr
      { code := 0, usTaken := 0, err := some bserr,
        submitted := none, drained := false, closed := false }
    | Except.ok bs =>
      httpFire { req1 with body := some bs } transport elapsedNanos

/-! ## Side conditions and sample values -/

/-- The body stage of fasthttpClient.do succeeds: either a fixed body
is configured, or the streaming producer returns a stream on this
call. -/
def bodyOKA (c : FasthttpClient) (bod : Except Err String) : Prop :=
  c.body.isSome = true ∨ ∃ s, bod = Except.ok s

/-- The body stage of httpClient.do succeeds. -/
def bodyOKB (c : HttpClient) (bod : Except Err String) : Prop :=
  c.body.isSome = true ∨ ∃ s, bod = Except.ok s

/-- Sample configuration with a fixed body and no proxy. -/
def wOptsFixed : ClientOpts :=
  { http2 := false, maxConns := 10, timeout := 2000000000, tlsConfig := none,
    disableKeepAlives := false,
    headers := [⟨"Content-Type", "application/json"⟩],
    url := "http://example.com/items", method := "POST", proxyUrl := "",
    body := some "payload" }

/-- Parse result of the sample target URL. -/
def wURL : URL :=
  { scheme := "http", host := "example.com", requestURI := "/items" }

def wClientA : FasthttpClient := newFastHTTPClient wOptsFixed wURL

def wClientB : HttpClient := newHTTPClient wOptsFixed wURL

/-- Sample configuration using the streaming body producer. -/
def wOptsStream : ClientOpts := { wOptsFixed with body := none }

def wStreamA : FasthttpClient := newFastHTTPClient wOptsStream wURL

def wStreamB : HttpClient := newHTTPClient wOptsStream wURL

/-- A configuration routed through an HTTP proxy. -/
def wOptsProxy : ClientOpts := { wOptsFixed with proxyUrl := "http://proxy.local:8080" }

/-- The sample configuration with keep-alives disabled. -/
def wOptsKA : ClientOpts := { wOptsFixed with disableKeepAlives := true }

/-- Sample configuration with an explicit Host header of empty value. -/
def cexOptsHost : ClientOpts := { wOptsFixed with headers := [⟨"Host", ""⟩] }

/-- Sample configuration with a non-empty explicit Host header. -/
def wOptsHost : ClientOpts :=
  { wOptsFixed with headers := [⟨"Host", "override.example"⟩] }

/-- The value of the last entry with exactly key k in the ordered
input list — the spec's "the value that appears last ... is the one in
effect" for a map-backed container keyed verbatim. -/
def lastValue (h : HeadersList) (k : String) : Option String :=
  match h with
  | [] => none
  | e :: rest =>
    match lastValue rest k with
    | some v => some v
    | none => if e.key = k then some e.value else none

/-- The value of the last entry whose canonical key matches k — the
spec's last-write-wins for the canonical-keyed fasthttp container. -/
def lastValueCanon (h : HeadersList) (k : String) : Option String :=
  match h with
  | [] => none
  | e :: rest =>
    match lastValueCanon rest k with
    | some v => some v
    | none => if canonicalKey e.key = canonicalKey k then some e.value else none

/-- The header of every request fasthttpClient.do builds: the copied
template (or a fresh empty header), with the parsed target host filled
in when the template's host is absent or empty. -/
def builtFastHeader (c : FasthttpClient) : FastRequestHeader :=
  let h0 : FastRequestHeader :=
    match c.headers with
    | some tpl => tpl
    | none => { host := none, entries := [] }
  if h0.host.getD "" = "" then { h0 with host := some c.host } else h0

/-! ## C1 -/

/-- C1: on either variant, whenever the body stage succeeds, a failed
transport submission returns the sentinel code -1, the transport error,
and the measured elapsed microseconds; a successful submission returns
the numeric HTTP status (non-negative, any status) and — for Variant B,
absent drain/close failures — a nil error. -/
theorem claim_C1_result_contract
    (cA : FasthttpClient) (bodA : Except Err String) (elA : Nat)
    (cB : HttpClient) (bodB : Except Err String) (elB : Nat)
    (hA : bodyOKA cA bodA) (hB : bodyOKB cB bodB) :
    (∀ e : Err,
      (fasthttpDo cA bodA (Except.error e) elA).code = -1 ∧
      (fasthttpDo cA bodA (Except.error e) elA).err = some e ∧
      (fasthttpDo cA bodA (Except.error e) elA).usTaken = elA / 1000) ∧
    (∀ n : Nat,
      (fasthttpDo cA bodA (Except.ok n) elA).code = (n : Int) ∧
      0 ≤ (fasthttpDo cA bodA (Except.ok n) elA).code ∧
      (fasthttpDo cA bodA (Except.ok n) elA).err = none ∧
      (fasthttpDo cA bodA (Except.ok n) elA).usTaken = elA / 1000) ∧
    (∀ e : Err,
      (httpDo cB bodB (Except.error e) elB).code = -1 ∧
      (httpDo cB bodB (Except.error e) elB).err = some e ∧
      (httpDo cB bodB (Except.error e) elB).usTaken = elB / 1000) ∧
    (∀ resp : RespB, resp.drainErr = none → resp.closeErr = none →
      (httpDo cB bodB (Except.ok resp) elB).code = (resp.statusCode : Int) ∧
      0 ≤ (httpDo cB bodB (Except.ok resp) elB).code ∧
      (httpDo cB bodB (Except.ok resp) elB).err = none ∧
      (httpDo cB bodB (Except.ok resp) elB).usTaken = elB / 1000) := by
  refine ⟨fun e => ?_, fun n => ?_, fun e => ?_, fun resp hd hc => ?_⟩
  · cases hb : cA.body with
    | some b => simp [fasthttpDo, hb, fastFire]
    | none =>
      rcases hA with h1 | ⟨s, hs⟩
      · simp [hb] at h1
      · subst hs; simp [fasthttpDo, hb, fastFire]
  · cases hb : cA.body with
    | some b => simp [fasthttpDo, hb, fastFire]
    | none =>
      rcases hA with h1 | ⟨s, hs⟩
      · simp [hb] at h1
      · subst hs; simp [fasthttpDo, hb, fastFire]
  · cases hb : cB.body with
    | some b => simp [httpDo, hb, httpFire]
    | none =>
      rcases hB with h1 | ⟨s, hs⟩
      · simp [hb] at h1
      · subst hs; simp [httpDo, hb, httpFire]
  · cases hb : cB.body with
    | some b => simp [httpDo, hb, httpFire, hd, hc]
    | none =>
      rcases hB with h1 | ⟨s, hs⟩
      · simp [hb] at h1
      · subst hs; simp [httpDo, hb, httpFire, hd, hc]

/-- Witness for C1 at concrete clients and oracles. -/
theorem claim_C1_result_contract_witness :
    (fasthttpDo wClientA (Except.ok "s") (Except.error "refused") 2500).code = -1 ∧
    (fasthttpDo wClientA (Except.ok "s") (Except.ok 404) 2500).err = none ∧
    (httpDo wClientB (Except.ok "s") (Except.ok ⟨200, none, none⟩) 2500).err = none := by
  have h := claim_C1_result_contract wClientA (Except.ok "s") 2500
    wClientB (Except.ok "s") 2500 (Or.inr ⟨_, rfl⟩) (Or.inr ⟨_, rfl⟩)
  exact ⟨(h.1 "refused").1, (h.2.1 404).2.2.1,
    (h.2.2.2 ⟨200, none, none⟩ rfl rfl).2.2.1⟩

/-! ## C2 -/

/-- C2: on either variant, a client configured with a body factory
(no fixed body) whose factory fails returns exactly (0, 0, err) and
submits nothing to the transport. -/
theorem claim_C2_body_factory_failure
    (cA : FasthttpClient) (e : Err) (trA : Except Err Nat) (elA : Nat)
    (cB : HttpClient) (trB : Except Err RespB) (elB : Nat)
    (hA : cA.body = none) (hB : cB.body = none) :
    fasthttpDo cA (Except.error e) trA elA =
      { code := 0, usTaken := 0, err := some e,
        released := false, submitted := none } ∧
    httpDo cB (Except.error e) trB elB =
      { code := 0, usTaken := 0, err := some e,
        submitted := none, drained := false, closed := false } := by
  constructor
  · simp [fasthttpDo, hA]
  · simp [httpDo, hB]

/-- Witness for C2 at concrete stream-configured clients. -/
theorem claim_C2_body_factory_failure_witness :
    fasthttpDo wStreamA (Except.error "no stream") (Except.ok 200) 1000 =
      { code := 0, usTaken := 0, err := some "no stream",
        released := false, submitted := none } ∧
    httpDo wStreamB (Except.error "no stream") (Except.ok ⟨200, none, none⟩) 1000 =
      { code := 0, usTaken := 0, err := some "no stream",
        submitted := none, drained := false, closed := false } :=
  claim_C2_body_factory_failure wStreamA "no stream" (Except.ok 200) 1000
    wStreamB (Except.ok ⟨200, none, none⟩) 1000 rfl rfl

/-! ## C8 -/

/-- C8: in Variant B, a successful submission always drains and closes
the response body before returning; the code is the captured status in
every case, a clean drain and close yield a nil error, and a failure of
the drain or of the close becomes the returned error. -/
theorem claim_C8_drain_close
    (cB : HttpClient) (bod : Except Err String) (resp : RespB) (el : Nat)
    (hB : bodyOKB cB bod) :
    (httpDo cB bod (Except.ok resp) el).drained = true ∧
    (httpDo cB bod (Except.ok resp) el).closed = true ∧
    (httpDo cB bod (Except.ok resp) el).code = (resp.statusCode : Int) ∧
    (resp.drainErr = none → resp.closeErr = none →
      (httpDo cB bod (Except.ok resp) el).err = none) ∧
    (∀ d : Err, resp.drainErr = some d → resp.closeErr = none →
      (httpDo cB bod (Except.ok resp) el).err = some d) ∧
    (∀ ce : Err, resp.closeErr = some ce →
      (httpDo cB bod (Except.ok resp) el).err = some ce) := by
  have key : ∀ P : DoBOutcome → Prop,
      (∀ req : GoHTTPRequest, P (httpFire req (Except.ok resp) el)) →
      P (httpDo cB bod (Except.ok resp) el) := by
    intro P hp
    cases hb : cB.body with
    | some b =>
      unfold httpDo
      rw [hb]
      exact hp _
    | none =>
      rcases hB with h1 | ⟨s, hs⟩
      · simp [hb] at h1
      · subst hs
        unfold httpDo
        rw [hb]
        exact hp _
  refine key (fun o =>
      o.drained = true ∧ o.closed = true ∧ o.code = (resp.statusCode : Int) ∧
      (resp.drainErr = none → resp.closeErr = none → o.err = none) ∧
      (∀ d : Err, resp.drainErr = some d → resp.closeErr = none → o.err = some d) ∧
      (∀ ce : Err, resp.closeErr = some ce → o.err = some ce))
    (fun req => ?_)
  refine ⟨by simp [httpFire], by simp [httpFire], by simp [httpFire],
    fun hd hc => by simp [httpFire, hd, hc],
    fun d hd hc => by simp [httpFire, hd, hc],
    fun ce hc => by simp [httpFire, hc]⟩

/-- Witness for C8 with a failing drain on a captured 200. -/
theorem claim_C8_drain_close_witness :
    (httpDo wClientB (Except.ok "s") (Except.ok ⟨200, some "drain fail", none⟩) 900).code = 200 ∧
    (httpDo wClientB (Except.ok "s") (Except.ok ⟨200, some "drain fail", none⟩) 900).err =
      some "drain fail" := by
  have h := claim_C8_drain_close wClientB (Except.ok "s")
    ⟨200, some "drain fail", none⟩ 900 (Or.inr ⟨_, rfl⟩)
  exact ⟨h.2.2.1, h.2.2.2.2.1 "drain fail" rfl rfl⟩

/-! ## C10 -/

/-- C10: in Variant B, when both the drain and the close fail on one
call, the returned error is the close error (it overwrites the drain
error), while the code still holds the captured status. -/
theorem claim_C10_close_overwrites_drain
    (cB : HttpClient) (bod : Except Err String) (resp : RespB) (el : Nat)
    (d ce : Err) (hB : bodyOKB cB bod)
    (hd : resp.drainErr = some d) (hc : resp.closeErr = some ce) :
    (httpDo cB bod (Except.ok resp) el).err = some ce ∧
    (httpDo cB bod (Except.ok resp) el).code = (resp.statusCode : Int) := by
  cases hb : cB.body with
  | some b => simp [httpDo, hb, httpFire, hd, hc]
  | none =>
    rcases hB with h1 | ⟨s, hs⟩
    · simp [hb] at h1
    · subst hs; simp [httpDo, hb, httpFire, hd, hc]

/-- Witness for C10: drain and close both fail; the close error wins. -/
theorem claim_C10_close_overwrites_drain_witness :
    (httpDo wClientB (Except.ok "s")
        (Except.ok ⟨502, some "drain fail", some "close fail"⟩) 900).err =
      some "close fail" ∧
    (httpDo wClientB (Except.ok "s")
        (Except.ok ⟨502, some "drain fail", some "close fail"⟩) 900).code = 502 :=
  claim_C10_close_overwrites_drain wClientB (Except.ok "s")
    ⟨502, some "drain fail", some "close fail"⟩ 900 "drain fail" "close fail"
    (Or.inr ⟨_, rfl⟩) rfl rfl

/-! ## C3 -/

/-- C3 counterexample: with a streaming-body configuration whose
producer fails, fasthttpClient.do takes the early error return at
clients.go line 117, before the ReleaseRequest/ReleaseResponse calls:
the pooled pair is NOT released on this exit path, refuting the
claimed guaranteed release on every exit path. -/
theorem claim_C3_release_counterexample :
    (fasthttpDo wStreamA (Except.error "no stream") (Except.ok 200) 1000).released = false ∧
    (fasthttpDo wStreamA (Except.error "no stream") (Except.ok 200) 1000).err =
      some "no stream" := by
  constructor <;> rfl

/-- C3 amended: the pooled request/response pair is released on every
exit path except the early return taken when the body-stream producer
fails, where the function returns without releasing the pair. -/
theorem claim_C3_release_amended
    (c : FasthttpClient) (bod : Except Err String) (tr : Except Err Nat) (el : Nat) :
    (bodyOKA c bod → (fasthttpDo c bod tr el).released = true) ∧
    (c.body = none → ∀ e : Err,
      (fasthttpDo c (Except.error e) tr el).released = false) := by
  constructor
  · intro h
    cases hb : c.body with
    | some b => cases tr <;> simp [fasthttpDo, hb, fastFire]
    | none =>
      rcases h with h1 | ⟨s, hs⟩
      · simp [hb] at h1
      · subst hs
        cases tr <;> simp [fasthttpDo, hb, fastFire]
  · intro h e
    simp [fasthttpDo, h]

/-- Witness for the amended C3: the pair is released both on a fixed
body and on transport failure. -/
theorem claim_C3_release_amended_witness :
    (fasthttpDo wClientA (Except.ok "s") (Except.error "refused") 700).released = true ∧
    (fasthttpDo wStreamA (Except.error "boom") (Except.ok 200) 700).released = false := by
  exact ⟨(claim_C3_release_amended wClientA (Except.ok "s") (Except.error "refused") 700).1
      (Or.inr ⟨_, rfl⟩),
    (claim_C3_release_amended wStreamA (Except.ok "unused") (Except.ok 200) 700).2 rfl "boom"⟩

/-! ## String lemmas for the dial-selection claim -/

theorem isPrefixOf_append_self (l t : List Char) : l.isPrefixOf (l ++ t) = true := by
  induction l with
  | nil => simp [List.isPrefixOf]
  | cons a as ih => simp [List.isPrefixOf, ih]

theorem containsSub_of_prefixOf (s sub : List Char) (h : sub.isPrefixOf s = true) :
    containsSub s sub = true := by
  cases s <;> simp [containsSub, h]

theorem replaceFirst_of_prefixSplit (old rest new : List Char) (h : old ≠ []) :
    replaceFirstList (old ++ rest) old new = new ++ rest := by
  cases old with
  | nil => exact absurd rfl h
  | cons c cs =>
    have hp : (c :: cs).isPrefixOf (c :: (cs ++ rest)) = true :=
      isPrefixOf_append_self (c :: cs) rest
    simp only [List.cons_append, replaceFirstList, hp, if_true]
    simp [List.drop_left]

theorem replaceFirst_of_not_contains (s old new : List Char)
    (h : containsSub s old = false) : replaceFirstList s old new = s := by
  induction s with
  | nil =>
    simp [containsSub] at h
    cases old with
    | nil => simp [List.isPrefixOf] at h
    | cons a as => simp [replaceFirstList]
  | cons c cs ih =>
    simp [containsSub] at h
    simp [replaceFirstList, h.1, ih h.2]

/-- A string with a non-empty prefix split is non-empty. -/
theorem prefixSplit_ne_empty (q r : String) (hq : q.data ≠ []) : q ++ r ≠ "" := by
  intro hh
  have hd := congrArg String.data hh
  rw [show (q ++ r).data = q.data ++ r.data from rfl] at hd
  simp at hd
  exact absurd hd.1 hq

/-- Go strings.Contains finds a needle that prefixes the haystack. -/
theorem goContains_of_prefixSplit (q t r : String) (hsplit : q.data = t.data ++ r.data) :
    ∀ s : String, goContains (q ++ s) t = true := by
  intro s
  show containsSub (q.data ++ s.data) t.data = true
  rw [hsplit, List.append_assoc]
  exact containsSub_of_prefixOf _ _ (isPrefixOf_append_self _ _)

/-- Go strings.Replace(q ++ r, q, "", 1) = r for non-empty q. -/
theorem goReplaceOnce_prefixSplit (q r : String) (hq : q.data ≠ []) :
    goReplaceOnce (q ++ r) q "" = r := by
  show (⟨replaceFirstList (q.data ++ r.data) q.data []⟩ : String) = r
  rw [replaceFirst_of_prefixSplit _ _ _ hq]
  rfl

/-- Go strings.Replace(s, old, new, 1) = s when old does not occur. -/
theorem goReplaceOnce_of_not_contains (s old new : String)
    (h : goContains s old = false) : goReplaceOnce s old new = s := by
  show (⟨replaceFirstList s.data old.data new.data⟩ : String) = s
  rw [replaceFirst_of_not_contains _ _ _ h]

/-! ## C4 -/

/-- C4: at Variant A construction the dial strategy depends only on
the proxy URL; an empty proxy URL selects the instrumented direct
dialer; a URL of the form socks5://addr selects the SOCKS5 dialer on
addr (socks5:// prefix stripped) — more generally any non-empty URL
containing the socks5 marker selects the SOCKS5 dialer with the first
socks5:// occurrence removed; EVERY other non-empty proxy URL selects
the HTTP CONNECT dialer, on the URL with its first https:// and
http:// occurrences removed — in particular on addr itself for URLs
of the form http://addr or https://addr (the scheme prefix stripped),
and on the URL unchanged when no such scheme prefix is present. -/
theorem claim_C4_dial_selection :
    (∀ (o o' : ClientOpts) (u u' : URL), o.proxyUrl = o'.proxyUrl →
      (newFastHTTPClient o u).client.dial = (newFastHTTPClient o' u').client.dial) ∧
    (∀ (o : ClientOpts) (u : URL), o.proxyUrl = "" →
      (newFastHTTPClient o u).client.dial = DialFuncModel.instrumentedDirect) ∧
    (∀ (o : ClientOpts) (u : URL) (r : String), o.proxyUrl = "socks5://" ++ r →
      (newFastHTTPClient o u).client.dial = DialFuncModel.socksProxy r) ∧
    (∀ (o : ClientOpts) (u : URL), o.proxyUrl ≠ "" →
      goContains o.proxyUrl "socks5" = true →
      (newFastHTTPClient o u).client.dial =
        DialFuncModel.socksProxy (goReplaceOnce o.proxyUrl "socks5://" "")) ∧
    (∀ (o : ClientOpts) (u : URL), o.proxyUrl ≠ "" →
      goContains o.proxyUrl "socks5" = false →
      (newFastHTTPClient o u).client.dial =
        DialFuncModel.httpProxy
          (goReplaceOnce (goReplaceOnce o.proxyUrl "https://" "") "http://" "")) ∧
    (∀ (o : ClientOpts) (u : URL) (r : String),
      o.proxyUrl = "http://" ++ r → goContains o.proxyUrl "socks5" = false →
      goContains o.proxyUrl "https://" = false →
      (newFastHTTPClient o u).client.dial = DialFuncModel.httpProxy r) ∧
    (∀ (o : ClientOpts) (u : URL) (r : String),
      o.proxyUrl = "https://" ++ r → goContains o.proxyUrl "socks5" = false →
      goContains r "http://" = false →
      (newFastHTTPClient o u).client.dial = DialFuncModel.httpProxy r) := by
  have hdial : ∀ (o : ClientOpts) (u : URL),
      (newFastHTTPClient o u).client.dial = fastDial o.proxyUrl := fun o u => rfl
  refine ⟨?_, ?_, ?_, ?_, ?_, ?_, ?_⟩
  · intro o o' u u' h
    rw [hdial, hdial, h]
  · intro o u h
    rw [hdial, h]
    rfl
  · intro o u r h
    rw [hdial, h]
    have hne : ("socks5://" ++ r : String) ≠ "" :=
      prefixSplit_ne_empty "socks5://" r (by decide)
    have hcont : goContains ("socks5://" ++ r) "socks5" = true :=
      goContains_of_prefixSplit "socks5://" "socks5" "://" (by decide) r
    have hrep : goReplaceOnce ("socks5://" ++ r) "socks5://" "" = r :=
      goReplaceOnce_prefixSplit "socks5://" r (by decide)
    simp [fastDial, hne, hcont, hrep]
  · intro o u hne hcont
    rw [hdial]
    simp [fastDial, hne, hcont]
  · intro o u hne hcont
    rw [hdial]
    simp [fastDial, hne, hcont]
  · intro o u r h hs5 hss
    rw [hdial]
    rw [h] at hs5 hss ⊢
    have hne : ("http://" ++ r : String) ≠ "" :=
      prefixSplit_ne_empty "http://" r (by decide)
    have h1 : goReplaceOnce ("http://" ++ r) "https://" "" = "http://" ++ r :=
      goReplaceOnce_of_not_contains _ _ _ hss
    have h2 : goReplaceOnce ("http://" ++ r) "http://" "" = r :=
      goReplaceOnce_prefixSplit "http://" r (by decide)
    simp [fastDial, hne, hs5, h1, h2]
  · intro o u r h hs5 hr
    rw [hdial]
    rw [h] at hs5 ⊢
    have hne : ("https://" ++ r : String) ≠ "" :=
      prefixSplit_ne_empty "https://" r (by decide)
    have h1 : goReplaceOnce ("https://" ++ r) "https://" "" = r :=
      goReplaceOnce_prefixSplit "https://" r (by decide)
    have h2 : goReplaceOnce r "http://" "" = r :=
      goReplaceOnce_of_not_contains _ _ _ hr
    simp [fastDial, hne, hs5, h1, h2]

/-- Witness for C4 at one proxy URL of each shape, including a
schemeless non-socks5 URL routed to the HTTP CONNECT dialer
unchanged. -/
theorem claim_C4_dial_selection_witness :
    (newFastHTTPClient wOptsFixed wURL).client.dial = DialFuncModel.instrumentedDirect ∧
    (newFastHTTPClient { wOptsFixed with proxyUrl := "socks5://" ++ "10.0.0.9:1080" }
        wURL).client.dial = DialFuncModel.socksProxy "10.0.0.9:1080" ∧
    (newFastHTTPClient { wOptsFixed with proxyUrl := "http://" ++ "proxy.local:8080" }
        wURL).client.dial = DialFuncModel.httpProxy "proxy.local:8080" ∧
    (newFastHTTPClient { wOptsFixed with proxyUrl := "proxy.local:3128" }
        wURL).client.dial = DialFuncModel.httpProxy "proxy.local:3128" := by
  have h4 := claim_C4_dial_selection.2.2.2.2.1
    { wOptsFixed with proxyUrl := "proxy.local:3128" } wURL (by decide) (by decide)
  refine ⟨claim_C4_dial_selection.2.1 wOptsFixed wURL rfl,
    claim_C4_dial_selection.2.2.1 _ wURL "10.0.0.9:1080" rfl,
    claim_C4_dial_selection.2.2.2.2.2.1 _ wURL "proxy.local:8080" rfl
      (by decide) (by decide),
    by rw [h4]; decide⟩

/-! ## C6 / C7 helpers -/

/-- The http.Transport fields newHTTPClient sets unconditionally,
projected through the proxy and HTTP/2 branches. -/
theorem httpTransport_fields (o : ClientOpts) (u : URL) :
    (newHTTPClient o u).client.transport.tlsClientConfig = o.tlsConfig ∧
    (newHTTPClient o u).client.transport.maxIdleConnsPerHost = intOfUInt64 o.maxConns ∧
    (newHTTPClient o u).client.transport.disableKeepAlives = o.disableKeepAlives ∧
    (newHTTPClient o u).client.transport.dialContext =
      some DialFuncModel.instrumentedDirect ∧
    (newHTTPClient o u).client.timeout = o.timeout := by
  unfold newHTTPClient
  by_cases hp : o.proxyUrl = "" <;> cases h2 : o.http2 <;> simp [hp, h2]

/-- int(u) is the identity on uint64 values below 2^63. -/
theorem intOfUInt64_of_lt (n : Nat) (h : n < 2 ^ 63) : intOfUInt64 n = (n : Int) := by
  unfold intOfUInt64
  have h64 : n % 2 ^ 64 = n := Nat.mod_eq_of_lt (lt_trans h (by norm_num))
  rw [h64, if_pos (by omega)]

/-! ## C6 -/

/-- C6 counterexample: with a non-empty proxy URL, Variant B still
installs the byte-counting DialContext (clients.go line 166 runs
unconditionally), refuting the claim that proxied connections are
established without the byte-counting wrapper in both variants. -/
theorem claim_C6_instrumentation_counterexample :
    (newHTTPClient wOptsProxy wURL).client.transport.dialContext =
      some DialFuncModel.instrumentedDirect ∧
    wOptsProxy.proxyUrl ≠ "" := by
  constructor
  · rfl
  · decide

/-- C6 amended: only Variant A bypasses the byte-counting dialer when
a proxy is configured; Variant B installs the instrumented DialContext
unconditionally, proxy or not. -/
theorem claim_C6_instrumentation_amended (o : ClientOpts) (u : URL)
    (h : o.proxyUrl ≠ "") :
    (newFastHTTPClient o u).client.dial ≠ DialFuncModel.instrumentedDirect ∧
    (newHTTPClient o u).client.transport.dialContext =
      some DialFuncModel.instrumentedDirect := by
  constructor
  · have hd : (newFastHTTPClient o u).client.dial = fastDial o.proxyUrl := rfl
    rw [hd]
    unfold fastDial
    rw [if_pos h]
    split <;> simp
  · exact (httpTransport_fields o u).2.2.2.1

/-- Witness for the amended C6 at the sample proxy configuration. -/
theorem claim_C6_instrumentation_amended_witness :
    (newFastHTTPClient wOptsProxy wURL).client.dial ≠
      DialFuncModel.instrumentedDirect ∧
    (newHTTPClient wOptsProxy wURL).client.transport.dialContext =
      some DialFuncModel.instrumentedDirect :=
  claim_C6_instrumentation_amended wOptsProxy wURL (by decide)

/-! ## C7 -/

/-- C7 counterexample: flipping disableKeepAlives changes nothing in
the constructed Variant A client — newFastHTTPClient never reads the
flag and fasthttp.HostClient gets no keep-alive setting — refuting the
claim that all four options take effect on both variants. -/
theorem claim_C7_options_counterexample :
    newFastHTTPClient wOptsKA wURL = newFastHTTPClient wOptsFixed wURL ∧
    wOptsKA.disableKeepAlives ≠ wOptsFixed.disableKeepAlives := by
  constructor
  · rfl
  · decide

/-- C7 amended: both variants honor MaxConns, the per-request timeout
and the TLS config; DisableKeepAlives takes effect on Variant B's
transport only — Variant A ignores it entirely. -/
theorem claim_C7_options_amended (o : ClientOpts) (u : URL)
    (h : o.maxConns < 2 ^ 63) :
    (newFastHTTPClient o u).client.maxConns = (o.maxConns : Int) ∧
    (newFastHTTPClient o u).client.readTimeout = o.timeout ∧
    (newFastHTTPClient o u).client.writeTimeout = o.timeout ∧
    (newFastHTTPClient o u).client.tlsConfig = o.tlsConfig ∧
    (newHTTPClient o u).client.transport.maxIdleConnsPerHost = (o.maxConns : Int) ∧
    (newHTTPClient o u).client.timeout = o.timeout ∧
    (newHTTPClient o u).client.transport.tlsClientConfig = o.tlsConfig ∧
    (newHTTPClient o u).client.transport.disableKeepAlives = o.disableKeepAlives ∧
    (∀ b b' : Bool,
      newFastHTTPClient { o with disableKeepAlives := b } u =
        newFastHTTPClient { o with disableKeepAlives := b' } u) := by
  have hic := intOfUInt64_of_lt o.maxConns h
  have hf := httpTransport_fields o u
  exact ⟨hic, rfl, rfl, rfl, hf.2.1.trans hic, hf.2.2.2.2, hf.1, hf.2.2.1,
    fun b b' => rfl⟩

/-- Witness for the amended C7 at the sample configuration. -/
theorem claim_C7_options_amended_witness :
    (newFastHTTPClient wOptsFixed wURL).client.maxConns = 10 ∧
    (newFastHTTPClient wOptsFixed wURL).client.readTimeout = 2000000000 ∧
    (newHTTPClient wOptsFixed wURL).client.transport.disableKeepAlives = false := by
  have h := claim_C7_options_amended wOptsFixed wURL (by decide)
  exact ⟨h.1, h.2.1, h.2.2.2.2.2.2.2.1⟩

/-! ## Last-write-wins characterization of the header adapters -/

theorem lookupAssoc_setAssoc (m : HTTPHeaderMap) (k k' : String) (v : List String) :
    lookupAssoc (setAssoc m k v) k' = if k = k' then some v else lookupAssoc m k' := by
  induction m with
  | nil => simp [setAssoc, lookupAssoc]
  | cons p rest ih =>
    obtain ⟨k0, v0⟩ := p
    by_cases h0 : k0 = k
    · subst h0
      by_cases h1 : k0 = k' <;> simp [setAssoc, lookupAssoc, h1]
    · by_cases h1 : k0 = k'
      · subst h1
        have hkk : ¬ k = k0 := fun hh => h0 hh.symm
        simp [setAssoc, lookupAssoc, h0, hkk]
      · simp [setAssoc, lookupAssoc, h0, h1, ih]

theorem foldl_setAssoc (h : HeadersList) (acc : HTTPHeaderMap) (k : String) :
    lookupAssoc (h.foldl (fun m e => setAssoc m e.key [e.value]) acc) k =
      match lastValue h k with
      | some v => some [v]
      | none => lookupAssoc acc k := by
  induction h generalizing acc with
  | nil => rfl
  | cons e rest ih =>
    simp only [List.foldl_cons, lastValue]
    rw [ih, lookupAssoc_setAssoc]
    cases hlv : lastValue rest k with
    | some v => rfl
    | none => by_cases he : e.key = k <;> simp [he]

/-- The net/http adapter realizes exact-key last-write-wins. -/
theorem http_adapter_lookup (h : HeadersList) (k : String) :
    lookupAssoc (headersToHTTPHeaders h) k =
      Option.map (fun v => [v]) (lastValue h k) := by
  unfold headersToHTTPHeaders
  cases h with
  | nil => rfl
  | cons e rest =>
    simp only [List.length_cons]
    rw [if_neg (by omega)]
    rw [foldl_setAssoc]
    cases hlv : lastValue (e :: rest) k <;> simp [hlv, lookupAssoc]

theorem lookupEntries_setEntries (es : List (String × String)) (k v k' : String) :
    lookupEntries (setEntries es k v) k' =
      if k = k' then some v else lookupEntries es k' := by
  induction es with
  | nil => simp [setEntries, lookupEntries]
  | cons p rest ih =>
    obtain ⟨k0, v0⟩ := p
    by_cases h0 : k0 = k
    · subst h0
      by_cases h1 : k0 = k' <;> simp [setEntries, lookupEntries, h1]
    · by_cases h1 : k0 = k'
      · subst h1
        have hkk : ¬ k = k0 := fun hh => h0 hh.symm
        simp [setEntries, lookupEntries, h0, hkk]
      · simp [setEntries, lookupEntries, h0, h1, ih]

theorem fastHdrPeek_set (hdr : FastRequestHeader) (a b k : String) :
    fastHdrPeek (hdr.set a b) k =
      if canonicalKey a = canonicalKey k then some b else fastHdrPeek hdr k := by
  unfold FastRequestHeader.set fastHdrPeek
  by_cases ha : canonicalKey a = "Host"
  · by_cases hk : canonicalKey k = "Host"
    · simp [ha, hk, ha.trans hk.symm]
    · have h1 : ¬ canonicalKey a = canonicalKey k := fun hh => hk (hh ▸ ha)
      have h2 : ¬ ("Host" = canonicalKey k) := fun hh => hk hh.symm
      simp [ha, hk, h1, h2]
  · by_cases hk : canonicalKey k = "Host"
    · have h1 : ¬ canonicalKey a = canonicalKey k := fun hh => ha (hh.trans hk)
      simp [ha, hk, h1, lookupEntries_setEntries]
    · simp [ha, hk, lookupEntries_setEntries]

theorem foldl_set_fast (h : HeadersList) (acc : FastRequestHeader) (k : String) :
    fastHdrPeek (h.foldl (fun a e => a.set e.key e.value) acc) k =
      match lastValueCanon h k with
      | some v => some v
      | none => fastHdrPeek acc k := by
  induction h generalizing acc with
  | nil => rfl
  | cons e rest ih =>
    simp only [List.foldl_cons, lastValueCanon]
    rw [ih, fastHdrPeek_set]
    cases hlv : lastValueCanon rest k with
    | some v => rfl
    | none => by_cases he : canonicalKey e.key = canonicalKey k <;> simp [he]

/-- The fasthttp adapter realizes canonical-key last-write-wins. -/
theorem fast_adapter_peek (h : HeadersList) (k : String) :
    fastPeekTemplate (headersToFastHTTPHeaders h) k = lastValueCanon h k := by
  cases h with
  | nil => rfl
  | cons e rest =>
    rw [show headersToFastHTTPHeaders (e :: rest) =
        some ((e :: rest).foldl (fun acc x => acc.set x.key x.value) ⟨none, []⟩) from
      by simp [headersToFastHTTPHeaders]]
    show fastHdrPeek _ k = _
    rw [foldl_set_fast]
    cases hlv : lastValueCanon (e :: rest) k with
    | some v => rfl
    | none => simp [fastHdrPeek, lookupEntries]

/-! ## C9 -/

/-- C9: neither adapter deduplicates the ordered input itself; the
native container realizes last-write-wins — for every key, looking the
key up in the adapted container yields the value of the last matching
entry of the input list (canonical-key matching for the fasthttp
container, verbatim keys for the net/http map). -/
theorem claim_C9_last_write_wins (h : HeadersList) (k : String) :
    fastPeekTemplate (headersToFastHTTPHeaders h) k = lastValueCanon h k ∧
    lookupAssoc (headersToHTTPHeaders h) k =
      Option.map (fun v => [v]) (lastValue h k) :=
  ⟨fast_adapter_peek h k, http_adapter_lookup h k⟩

/-! ## C5 -/

theorem fasthttpDo_submitted_header (c : FasthttpClient) (bod : Except Err String)
    (tr : Except Err Nat) (el : Nat) (req : FastRequest)
    (h : (fasthttpDo c bod tr el).submitted = some req) :
    req.header = builtFastHeader c := by
  cases hh : c.headers <;> cases hb : c.body <;> cases bod <;> cases tr <;>
    simp_all [fasthttpDo, fastFire, builtFastHeader] <;>
    (subst h; simp [apply_ite FastRequest.header])

theorem httpDo_submitted_fields (c : HttpClient) (bod : Except Err String)
    (tr : Except Err RespB) (el : Nat) (req : GoHTTPRequest)
    (h : (httpDo c bod tr el).submitted = some req) :
    req.host = (if httpHeaderGet c.headers "Host" ≠ "" then
        httpHeaderGet c.headers "Host" else "") ∧
    req.url = c.url := by
  by_cases hg : httpHeaderGet c.headers "Host" = ""
  · cases hb : c.body <;> cases bod <;> cases tr <;> simp_all [httpDo, httpFire, hg] <;>
      (subst h; simp)
  · cases hb : c.body <;> cases bod <;> cases tr <;> simp_all [httpDo, httpFire, hg] <;>
      (subst h; simp)

/-- C5 counterexample: a configured header list containing the
explicit entry (Host, "") does NOT override the URL-derived host in
either variant — the empty value is indistinguishable from an absent
Host header, so both variants fall back to the parsed target host
(example.com), refuting the claim for empty-valued Host headers. -/
theorem claim_C5_host_override_counterexample :
    lastValue cexOptsHost.headers "Host" = some "" ∧
    Option.map GoHTTPRequest.effectiveHost
        (httpDo (newHTTPClient cexOptsHost wURL) (Except.ok "s")
          (Except.ok ⟨200, none, none⟩) 10).submitted = some "example.com" ∧
    Option.map (fun r : FastRequest => r.header.host)
        (fasthttpDo (newFastHTTPClient cexOptsHost wURL) (Except.ok "s")
          (Except.ok 200) 10).submitted = some (some "example.com") ∧
    ("example.com" : String) ≠ "" := by
  refine ⟨rfl, rfl, rfl, by decide⟩

/-- C5 amended: an explicit Host header whose effective (last) value
is non-empty overrides the URL-derived host on every request that is
submitted — matched by canonical key in Variant A and by the verbatim
key Host in Variant B; in Variant A, when no Host header was set, or
its effective value is empty, the request's Host is set from the host
parsed out of the target URL at construction. -/
theorem claim_C5_host_override_amended :
    (∀ (o : ClientOpts) (u : URL) (bod : Except Err String) (tr : Except Err Nat)
        (el : Nat) (v : String) (req : FastRequest),
      lastValueCanon o.headers "Host" = some v → v ≠ "" →
      (fasthttpDo (newFastHTTPClient o u) bod tr el).submitted = some req →
      req.header.host = some v) ∧
    (∀ (o : ClientOpts) (u : URL) (bod : Except Err String) (tr : Except Err Nat)
        (el : Nat) (req : FastRequest),
      (lastValueCanon o.headers "Host" = none ∨
        lastValueCanon o.headers "Host" = some "") →
      (fasthttpDo (newFastHTTPClient o u) bod tr el).submitted = some req →
      req.header.host = some u.host) ∧
    (∀ (o : ClientOpts) (u : URL) (bod : Except Err String) (tr : Except Err RespB)
        (el : Nat) (v : String) (req : GoHTTPRequest),
      lastValue o.headers "Host" = some v → v ≠ "" →
      (httpDo (newHTTPClient o u) bod tr el).submitted = some req →
      req.host = v ∧ GoHTTPRequest.effectiveHost req = v) := by
  have canonHost : canonicalKey "Host" = "Host" := by decide
  refine ⟨?_, ?_, ?_⟩
  · intro o u bod tr el v req hlast hv hsub
    have hdr := fasthttpDo_submitted_header _ _ _ _ _ hsub
    have hpeek : fastPeekTemplate (headersToFastHTTPHeaders o.headers) "Host" = some v := by
      rw [fast_adapter_peek]; exact hlast
    have hch : (newFastHTTPClient o u).headers = headersToFastHTTPHeaders o.headers := rfl
    cases hadp : headersToFastHTTPHeaders o.headers with
    | none => rw [hadp] at hpeek; simp [fastPeekTemplate] at hpeek
    | some tpl =>
      rw [hadp] at hpeek
      have hh : tpl.host = some v := by
        have h2 : fastHdrPeek tpl "Host" = some v := hpeek
        simp [fastHdrPeek, canonHost] at h2
        exact h2
      rw [hdr]
      unfold builtFastHeader
      rw [show (newFastHTTPClient o u).headers = some tpl from hch.trans hadp]
      simp [hh, hv]
  · intro o u bod tr el req hd hsub
    have hdr := fasthttpDo_submitted_header _ _ _ _ _ hsub
    have hch : (newFastHTTPClient o u).headers = headersToFastHTTPHeaders o.headers := rfl
    have hhost : (newFastHTTPClient o u).host = u.host := rfl
    rcases hd with hd | hd <;>
    · have hpeek : fastPeekTemplate (headersToFastHTTPHeaders o.headers) "Host" =
          lastValueCanon o.headers "Host" := fast_adapter_peek _ _
      rw [hd] at hpeek
      cases hadp : headersToFastHTTPHeaders o.headers with
      | none =>
        rw [hdr]
        unfold builtFastHeader
        rw [hch.trans hadp]
        simp [hhost]
      | some tpl =>
        rw [hadp] at hpeek
        have h2 : fastHdrPeek tpl "Host" = _ := hpeek
        simp [fastHdrPeek, canonHost] at h2
        rw [hdr]
        unfold builtFastHeader
        rw [hch.trans hadp]
        simp [h2, hhost]
  · intro o u bod tr el v req hlast hv hsub
    have hf := httpDo_submitted_fields _ _ _ _ _ hsub
    have hch : (newHTTPClient o u).headers = headersToHTTPHeaders o.headers := rfl
    have hget : httpHeaderGet (headersToHTTPHeaders o.headers) "Host" = v := by
      unfold httpHeaderGet
      rw [canonHost, http_adapter_lookup, hlast]
      rfl
    have h1 : req.host = v := by
      rw [hf.1, hch, hget, if_pos hv]
    refine ⟨h1, ?_⟩
    unfold GoHTTPRequest.effectiveHost
    rw [h1, if_pos hv]

/-- Witness for the amended C5: a non-empty configured Host value is
the host of the submitted request in both variants. -/
theorem claim_C5_host_override_amended_witness :
    Option.map (fun r : FastRequest => r.header.host)
      (fasthttpDo (newFastHTTPClient wOptsHost wURL) (Except.ok "s")
        (Except.ok 200) 10).submitted = some (some "override.example") ∧
    Option.map GoHTTPRequest.effectiveHost
      (httpDo (newHTTPClient wOptsHost wURL) (Except.ok "s")
        (Except.ok ⟨200, none, none⟩) 10).submitted = some "override.example" := by
  constructor
  · cases hsub : (fasthttpDo (newFastHTTPClient wOptsHost wURL) (Except.ok "s")
        (Except.ok 200) 10).submitted with
    | none => exact absurd hsub (by decide)
    | some req =>
      have h1 := claim_C5_host_override_amended.1 wOptsHost wURL (Except.ok "s")
        (Except.ok 200) 10 "override.example" req (by decide) (by decide) hsub
      simp [h1]
  · cases hsub : (httpDo (newHTTPClient wOptsHost wURL) (Except.ok "s")
        (Except.ok ⟨200, none, none⟩) 10).submitted with
    | none => exact absurd hsub (by decide)
    | some req =>
      have h1 := claim_C5_host_override_amended.2.2 wOptsHost wURL (Except.ok "s")
        (Except.ok ⟨200, none, none⟩) 10 "override.example" req (by decide) (by decide) hsub
      simp [h1.2]

end Bombardier
